import Mathlib

/-!
Verification of the pychat TCP chat server against its specification.

The development shallowly embeds the server-side core of the repository:
the length-prefixed framing codec (pychat/network_utils.py), the
connection registry, broadcast engine, session handshake, message loop,
command dispatch and teardown (pychat/server.py).  Byte streams are
modelled as lists of naturals below 256, sockets as natural-number
connection identifiers, and the Python dict holding clients as an
association list in insertion order (Python dicts preserve insertion
order).  Fallible socket sends are modelled by an explicit outcome
parameter; a Python function that may raise to its caller is given an
Except result type, while one that catches internally returns a plain
value.
-/

namespace PyChat

/-- A connection identifier (stands for a socket object in server.py;
identity is the underlying stream handle). -/
abbrev Conn := Nat

/-- Message type constants from pychat/network_utils.py lines 12-17
(byte values of the one-byte tags). -/
def MSG_TYPE_TEXT : Nat := 1

/-- FILE tag, network_utils.py line 13. -/
def MSG_TYPE_FILE : Nat := 2

/-- JOIN tag, network_utils.py line 14. -/
def MSG_TYPE_JOIN : Nat := 3

/-- LEAVE tag, network_utils.py line 15. -/
def MSG_TYPE_LEAVE : Nat := 4

/-- ERROR tag, network_utils.py line 16. -/
def MSG_TYPE_ERROR : Nat := 5

/-- COMMAND tag, network_utils.py line 17. -/
def MSG_TYPE_COMMAND : Nat := 6

/-- Big-endian 4-byte packing of a 32-bit unsigned integer:
struct.pack with format string bang-I (network byte order), used for the
frame header in network_utils.py lines 20-27.  Faithful for
n < 2^32 (Python struct.pack raises for larger values, which send_msg
does not catch; claims about the codec carry that bound). -/
def bePack (n : Nat) : List Nat :=
  [n / 16777216 % 256, n / 65536 % 256, n / 256 % 256, n % 256]

/-- Big-endian unpacking of a byte list, struct.unpack of format
bang-I on the 4 header bytes (network_utils.py line 56). -/
def beUnpack (bs : List Nat) : Nat :=
  bs.foldl (fun acc b => acc * 256 + b) 0

/-- The exact byte sequence written by send_msg (network_utils.py
lines 23-28): message = msg_type + payload, header = pack(len(message)),
then header + message.  This is the codec encode function of the spec. -/
def encodeMsg (t : Nat) (payload : List Nat) : List Nat :=
  bePack (1 + payload.length) ++ t :: payload

/-- recvall (network_utils.py lines 34-46): reads exactly n bytes from
the stream, returning the bytes read and the remaining stream; returns
none when the stream is exhausted before n bytes arrive (the code
returns None on an empty recv or on ConnectionResetError / OSError).
With n = 0 the Python loop body never runs and an empty bytes object is
returned, which the model matches. -/
def recvall (stream : List Nat) (n : Nat) : Option (List Nat × List Nat) :=
  if n ≤ stream.length then some (stream.take n, stream.drop n) else none

/-- recv_msg (network_utils.py lines 48-70): reads the 4-byte header,
unpacks the length, reads exactly that many body bytes, and splits the
body into the type byte and the payload.  Returns none when the stream
closes early, and also (line 63: if not message_data) when the declared
length is zero, since an empty bytes object is falsy in Python.  The
struct.error branch at line 57 is unreachable because recvall hands
unpack exactly 4 bytes.  The result carries the unread remainder of the
stream, so that reading past the frame boundary is expressible. -/
def recv_msg (stream : List Nat) : Option ((Nat × List Nat) × List Nat) :=
  match recvall stream 4 with
  | none => none
  | some (hdr, rest) =>
    match recvall rest (beUnpack hdr) with
    | none => none
    | some (body, rest2) =>
      match body with
      | [] => none
      | tb :: pb => some ((tb, pb), rest2)

theorem bePack_length (n : Nat) : (bePack n).length = 4 := rfl

theorem beUnpack_bePack (n : Nat) (h : n < 4294967296) :
    beUnpack (bePack n) = n := by
  simp [beUnpack, bePack]
  omega

/-- Reading exactly the length of the first chunk of a stream returns
that chunk and the remainder. -/
theorem recvall_exact (a b : List Nat) (n : Nat) (h : a.length = n) :
    recvall (a ++ b) n = some (a, b) := by
  rw [recvall, if_pos (by simp [← h])]
  rw [← h, List.take_left, List.drop_left]

/-- Asking recvall for more bytes than the stream holds yields none
(the connection closed before the read completed). -/
theorem recvall_short (s : List Nat) (n : Nat) (h : s.length < n) :
    recvall s n = none := by
  rw [recvall, if_neg (by omega)]

/-- C1: Codec round-trip.  For every one-byte type tag and every byte
payload (empty included) with 1 + len(payload) < 2^32, decoding the
stream produced by encode yields exactly the tag and payload back, and
the bytes following the frame are left unread (the remainder returned
is exactly the suffix appended after the frame). -/
theorem codec_round_trip (t : Nat) (p extra : List Nat)
    (ht : t < 256) (hlen : 1 + p.length < 4294967296) :
    recv_msg (encodeMsg t p ++ extra) = some ((t, p), extra) := by
  have hstream : encodeMsg t p ++ extra
      = bePack (1 + p.length) ++ (t :: (p ++ extra)) := by
    simp [encodeMsg]
  have h1 : recvall (bePack (1 + p.length) ++ (t :: (p ++ extra))) 4
      = some (bePack (1 + p.length), t :: (p ++ extra)) :=
    recvall_exact _ _ _ (bePack_length _)
  have hsplit : t :: (p ++ extra) = (t :: p) ++ extra := by simp
  have h2 : recvall (t :: (p ++ extra)) (1 + p.length)
      = some (t :: p, extra) := by
    rw [hsplit]
    exact recvall_exact _ _ _ (by simp [Nat.add_comm])
  rw [hstream]
  simp only [recv_msg, h1, beUnpack_bePack _ hlen, h2]

/-- C1 witness at a concrete frame: tag 3, payload bytes [0, 255], and a
trailing byte 7 left unread. -/
theorem codec_round_trip_witness :
    3 < 256 ∧ 1 + [0, 255].length < 4294967296 ∧
    recv_msg (encodeMsg 3 [0, 255] ++ [7]) = some ((3, [0, 255]), [7]) :=
  ⟨by decide, by decide, codec_round_trip 3 [0, 255] [7] (by decide) (by decide)⟩

/-- C8: Partial-read robustness.  Truncating a well-formed frame to any
N bytes short of the full frame makes the decoder report the clean
end-of-stream result none: a truncated frame is never reported as a
successful message (and the decoder is a total function, so no
unhandled exception is possible in the model). -/
theorem recv_partial_none (t : Nat) (p : List Nat) (N : Nat)
    (hlen : 1 + p.length < 4294967296)
    (hN : N < (encodeMsg t p).length) :
    recv_msg ((encodeMsg t p).take N) = none := by
  have hfull : (encodeMsg t p).length = 4 + (1 + p.length) := by
    simp [encodeMsg, bePack]
    omega
  by_cases h4 : N < 4
  · have h1 : recvall ((encodeMsg t p).take N) 4 = none :=
      recvall_short _ _ (by simp only [List.length_take, hfull]; omega)
    simp only [recv_msg, h1]
  · push_neg at h4
    have hstream : encodeMsg t p = bePack (1 + p.length) ++ (t :: p) := by
      simp [encodeMsg]
    have htake : (encodeMsg t p).take N
        = bePack (1 + p.length) ++ (t :: p).take (N - 4) := by
      rw [hstream, List.take_append_eq_append_take]
      rw [List.take_of_length_le (by rw [bePack_length]; omega), bePack_length]
    have h1 : recvall (bePack (1 + p.length) ++ (t :: p).take (N - 4)) 4
        = some (bePack (1 + p.length), (t :: p).take (N - 4)) :=
      recvall_exact _ _ _ (bePack_length _)
    have h2 : recvall ((t :: p).take (N - 4)) (1 + p.length) = none := by
      refine recvall_short _ _ ?hlt
      rw [List.length_take]
      simp only [List.length_cons]
      rw [hfull] at hN
      omega
    rw [htake]
    simp only [recv_msg, h1, beUnpack_bePack _ hlen, h2]

/-- C8 witness: frame for tag 1 with payload [65, 66] needs 7 bytes;
cutting it to 5 bytes (inside the body) decodes to none. -/
theorem recv_partial_none_witness :
    1 + [65, 66].length < 4294967296 ∧ 5 < (encodeMsg 1 [65, 66]).length ∧
    recv_msg ((encodeMsg 1 [65, 66]).take 5) = none :=
  ⟨by decide, by decide, recv_partial_none 1 [65, 66] 5 (by decide) (by decide)⟩

/-- Encoding of one unicode scalar value to UTF-8 bytes; used to model
Python str.encode (the default utf-8 codec) applied to server-built
strings such as the username::: sender marker and announcement texts. -/
def utf8EncodeChar (ch : Char) : List Nat :=
  if ch.toNat < 128 then [ch.toNat]
  else if ch.toNat < 2048 then
    [192 + ch.toNat / 64, 128 + ch.toNat % 64]
  else if ch.toNat < 65536 then
    [224 + ch.toNat / 4096, 128 + ch.toNat / 64 % 64, 128 + ch.toNat % 64]
  else
    [240 + ch.toNat / 262144, 128 + ch.toNat / 4096 % 64,
     128 + ch.toNat / 64 % 64, 128 + ch.toNat % 64]

/-- Python str.encode: UTF-8 bytes of a string. -/
def encodeUtf8 (s : String) : List Nat :=
  s.data.foldr (fun ch acc => utf8EncodeChar ch ++ acc) []

/-- Continuation byte test for UTF-8 decoding. -/
def isCont (b : Nat) : Bool := 128 ≤ b && b ≤ 191

/-- Attempts to parse one well-formed UTF-8 sequence at the head of a
byte list, returning the scalar value and the number of bytes consumed.
The ranges follow RFC 3629 exactly as CPython's utf-8 decoder checks
them: no overlong forms, no surrogates, nothing above U+10FFFF. -/
def utf8Seq : List Nat → Option (Nat × Nat)
  | [] => none
  | b0 :: rest =>
    if b0 < 128 then some (b0, 1)
    else if 194 ≤ b0 && b0 ≤ 223 then
      match rest with
      | b1 :: _ =>
        if isCont b1 then some ((b0 - 192) * 64 + (b1 - 128), 2) else none
      | _ => none
    else if 224 ≤ b0 && b0 ≤ 239 then
      match rest with
      | b1 :: b2 :: _ =>
        if (if b0 = 224 then 160 ≤ b1 && b1 ≤ 191
            else if b0 = 237 then 128 ≤ b1 && b1 ≤ 159
            else isCont b1) && isCont b2 then
          some ((b0 - 224) * 4096 + (b1 - 128) * 64 + (b2 - 128), 3)
        else none
      | _ => none
    else if 240 ≤ b0 && b0 ≤ 244 then
      match rest with
      | b1 :: b2 :: b3 :: _ =>
        if (if b0 = 240 then 144 ≤ b1 && b1 ≤ 191
            else if b0 = 244 then 128 ≤ b1 && b1 ≤ 143
            else isCont b1) && isCont b2 && isCont b3 then
          some ((b0 - 240) * 262144 + (b1 - 128) * 4096
                + (b2 - 128) * 64 + (b3 - 128), 4)
        else none
      | _ => none
    else none

/-- Decoding loop: well-formed sequences become characters, any byte
not opening a well-formed sequence is dropped, as Python
bytes.decode with errors equal to ignore does (since continuation
bytes can never start a sequence, dropping a single byte and rescanning
yields the same characters as CPython's maximal-subpart skipping).
Fuel is the list length; every step consumes at least one byte. -/
def utf8DecodeAux : Nat → List Nat → List Char
  | 0, _ => []
  | _ + 1, [] => []
  | fuel + 1, b :: rest =>
    match utf8Seq (b :: rest) with
    | some (v, k) => Char.ofNat v :: utf8DecodeAux fuel ((b :: rest).drop k)
    | none => utf8DecodeAux fuel rest

/-- Python bytes.decode with the utf-8 codec and errors equal to
ignore, as used at server.py lines 105 and 133. -/
def decodeUtf8Ignore (bs : List Nat) : String :=
  ⟨utf8DecodeAux bs.length bs⟩

/-- Bool test that the char list pre is an initial segment of s. -/
def charsStart : List Char → List Char → Bool
  | _, [] => true
  | [], _ :: _ => false
  | a :: as, b :: bs => a == b && charsStart as bs

/-- Python str.startswith, used at server.py line 136 to detect
commands. -/
def strStarts (s pre : String) : Bool := charsStart s.data pre.data

/-- Python str.lower restricted to ASCII case folding (the command
verbs compared at server.py line 162 are ASCII). -/
def pyLower (s : String) : String := ⟨s.data.map Char.toLower⟩

/-- Whitespace as recognized by Python str.split for ASCII input. -/
def isPyWs (ch : Char) : Bool :=
  ch = ' ' || ch = '\t' || ch = '\n' || ch = '\r' ||
  ch.toNat = 11 || ch.toNat = 12

/-- First whitespace-delimited token of a string: command.split with
maxsplit 1 followed by taking element 0, as at server.py lines 161-162.
Faithful whenever the string holds at least one non-whitespace
character (it always does on the slash-led command texts that reach
_handle_command). -/
def pySplitFirst (s : String) : String :=
  ⟨(s.data.dropWhile isPyWs).takeWhile (fun ch => !isPyWs ch)⟩

/-- Python str.join with separator comma-space over a list of strings,
as at server.py line 172. -/
def joinCommaSp : List String → String
  | [] => ""
  | [u] => u
  | u :: v :: rest => u ++ ", " ++ joinCommaSp (v :: rest)

/-- The server's client registry self.clients (server.py line 21): a
Python dict from socket to username, modelled as an association list in
insertion order. -/
abbrev Registry := List (Conn × String)

/-- Keys of the registry (the registered sockets), iteration order. -/
def registryKeys (reg : Registry) : List Conn := reg.map Prod.fst

/-- Values of the registry: self.clients.values(), insertion order. -/
def registryValues (reg : Registry) : List String := reg.map Prod.snd

/-- Python dict item assignment self.clients[sock] = username
(server.py line 112): replaces the value if the key is present,
otherwise appends the pair at the end. -/
def dictInsert (c : Conn) (u : String) : Registry → Registry
  | [] => [(c, u)]
  | (k, v) :: rest => if k = c then (c, u) :: rest else (k, v) :: dictInsert c u rest

/-- Python membership test sock in self.clients / dict lookup. -/
def lookupConn (c : Conn) : Registry → Option String
  | [] => none
  | (k, v) :: rest => if k = c then some v else lookupConn c rest

/-- Python dict pop: self.clients.pop(sock) removes the key
(server.py line 87). -/
def dictErase (c : Conn) (reg : Registry) : Registry :=
  reg.filter (fun e => e.1 ≠ c)

/-- One outbound effect of the session handler: a direct send to one
socket, a request to the broadcast engine (carrying the optional
excluded sender), or a server-side close of a socket. -/
inductive SendAction where
  | direct (target : Conn) (msgType : Nat) (payload : List Nat)
  | broadcast (msgType : Nat) (payload : List Nat) (excl : Option Conn)
  | closeConn (target : Conn)
deriving DecidableEq

/-- The targets the broadcast loop at server.py lines 66-67 attempts:
every registered socket whose identity differs from the excluded
sender (None excludes nobody). -/
def broadcastTargets (reg : Registry) (sender : Option Conn) : List Conn :=
  (registryKeys reg).filter (fun k => some k ≠ sender)

/-- Result of one iteration of the username loop of _handle_client
(server.py lines 99-120): the client disconnected (recv_msg returned
None, line 101), the loop continues with the registry unchanged and
some frames sent (invalid JOIN or name collision, AWAITING_JOIN is
kept), or the username was accepted and the session becomes ACTIVE. -/
inductive JoinResult where
  | disconnected
  | retry (reg : Registry) (out : List SendAction)
  | accepted (username : String) (reg : Registry) (out : List SendAction)
deriving DecidableEq

/-- One iteration of the username loop of _handle_client, server.py
lines 99-120.  The JOIN branch (line 104) requires the tag JOIN and a
non-empty raw payload, decodes the username dropping undecodable
bytes (line 105), rejects a name already among the registry values with
an ERROR frame and stays in the loop (lines 108-111), and otherwise
stores the pair, announces the join to everyone else and sends the
welcome (lines 112-116).  Any other frame draws the invalid-JOIN
error and stays in the loop (lines 117-119). -/
def handshakeStep (reg : Registry) (c : Conn) (m : Option (Nat × List Nat)) :
    JoinResult :=
  match m with
  | none => JoinResult.disconnected
  | some (t, payload) =>
    if t = MSG_TYPE_JOIN ∧ payload ≠ [] then
      if decodeUtf8Ignore payload ∈ registryValues reg then
        JoinResult.retry reg
          [SendAction.direct c MSG_TYPE_ERROR (encodeUtf8 "Username already taken.")]
      else
        JoinResult.accepted (decodeUtf8Ignore payload)
          (dictInsert c (decodeUtf8Ignore payload) reg)
          [SendAction.broadcast MSG_TYPE_JOIN
            (encodeUtf8 (decodeUtf8Ignore payload ++ " joined the chat.")) (some c),
           SendAction.direct c MSG_TYPE_TEXT
            (encodeUtf8 "Welcome! Type /help for commands.")]
    else
      JoinResult.retry reg
        [SendAction.direct c MSG_TYPE_ERROR (encodeUtf8 "Invalid JOIN message.")]

/-- _handle_command, server.py lines 159-179: lowercases the first
whitespace-delimited token of the command text and dispatches.  Every
branch sends only to the issuing socket; /quit additionally closes the
issuing socket server-side (line 168). -/
def handleCommand (reg : Registry) (c : Conn) (command : String) :
    List SendAction :=
  if pyLower (pySplitFirst command) = "/quit" then
    [SendAction.direct c MSG_TYPE_COMMAND (encodeUtf8 "/quit_ack"),
     SendAction.closeConn c]
  else if pyLower (pySplitFirst command) = "/users" then
    [SendAction.direct c MSG_TYPE_TEXT
      (encodeUtf8 ("[Server] Online users: " ++ joinCommaSp (registryValues reg)))]
  else if pyLower (pySplitFirst command) = "/help" then
    [SendAction.direct c MSG_TYPE_TEXT
      (encodeUtf8 "[Server] Commands:\n/users - List online users\n/send <filepath> - Send a file\n/quit - Disconnect")]
  else
    [SendAction.direct c MSG_TYPE_ERROR (encodeUtf8 "Unknown command. Type /help.")]

/-- Result of one iteration of the main message loop: either recv_msg
returned None (line 125, the loop breaks towards teardown) or the
frame was handled producing outbound effects. -/
inductive StepOut where
  | disconnected
  | handled (out : List SendAction)
deriving DecidableEq

/-- One iteration of the main message loop of _handle_client, server.py
lines 123-146, for an ACTIVE session with the given username.  TEXT
frames whose decoded text starts with a slash go to _handle_command;
other TEXT and all FILE frames are broadcast with the
username-plus-double-colon marker prepended to the original payload
bytes, excluding the sender; frames of any other type produce
nothing. -/
def activeStep (reg : Registry) (c : Conn) (username : String)
    (m : Option (Nat × List Nat)) : StepOut :=
  match m with
  | none => StepOut.disconnected
  | some (t, payload) =>
    if t = MSG_TYPE_TEXT then
      if strStarts (decodeUtf8Ignore payload) "/" then
        StepOut.handled (handleCommand reg c (decodeUtf8Ignore payload))
      else
        StepOut.handled
          [SendAction.broadcast MSG_TYPE_TEXT
            (encodeUtf8 (username ++ "::") ++ payload) (some c)]
    else if t = MSG_TYPE_FILE then
      StepOut.handled
        [SendAction.broadcast MSG_TYPE_FILE
          (encodeUtf8 (username ++ "::") ++ payload) (some c)]
    else
      StepOut.handled []

/-- _remove_client, server.py lines 82-92: pops the socket from the
registry if present and returns the former username, or the sentinel
string unknown when the socket was not registered.  (Closing the
socket is an effect on the stream, not on the registry.) -/
def _remove_client (reg : Registry) (c : Conn) : Registry × String :=
  match lookupConn c reg with
  | some u => (dictErase c reg, u)
  | none => (reg, "unknown")

/-- The teardown path of _handle_client, server.py lines 152-157: the
client is removed, and only when the returned username is truthy
(non-empty) and differs from the sentinel unknown is the LEAVE
announcement broadcast to the remaining registry (no excluded
sender). -/
def teardownStep (reg : Registry) (c : Conn) : Registry × List SendAction :=
  if (_remove_client reg c).2 ≠ "" ∧ (_remove_client reg c).2 ≠ "unknown" then
    ((_remove_client reg c).1,
     [SendAction.broadcast MSG_TYPE_LEAVE
       (encodeUtf8 ((_remove_client reg c).2 ++ " left the chat.")) none])
  else ((_remove_client reg c).1, [])

/-- send_msg, network_utils.py lines 23-31: encodes and writes the
frame; a BrokenPipeError or OSError from the socket is re-raised as
ConnectionError to the caller.  The sendOk flag stands for whether the
underlying sendall succeeds; the ok result carries the bytes that were
written. -/
def send_msg (sendOk : Bool) (t : Nat) (payload : List Nat) :
    Except String (List Nat) :=
  if sendOk then Except.ok (encodeMsg t payload)
  else Except.error "Failed to send message"

/-- _send_direct_message, server.py lines 75-80: calls send_msg and
catches ConnectionError, merely logging a warning.  The result type
records what the caller observes: always a normal return, carrying the
list of warnings logged on the way. -/
def _send_direct_message (sendOk : Bool) (t : Nat) (payload : List Nat) :
    Except String (List String) :=
  match send_msg sendOk t payload with
  | Except.ok _ => Except.ok []
  | Except.error _ => Except.ok ["Failed to send direct message."]

/-- The per-target loop of _broadcast, server.py lines 66-72: every
registered socket other than the excluded sender is attempted in
registry order; a BrokenPipeError or OSError on one target is caught
inside the loop (logged), so the loop continues with the next target.
The sendFails oracle says which sockets' sendall raises; the result
records each attempted target, the bytes offered to it, and whether
the send succeeded. -/
def broadcastLoop (msg : List Nat) (sender : Option Conn)
    (sendFails : Conn → Bool) : Registry → List (Conn × List Nat × Bool)
  | [] => []
  | (k, _) :: rest =>
    if some k ≠ sender then
      (k, msg, !sendFails k) :: broadcastLoop msg sender sendFails rest
    else broadcastLoop msg sender sendFails rest

/-- _broadcast, server.py lines 58-73: builds the framed message once
(identically to send_msg's encoding) and runs the per-target loop.  The
Except result type records what the caller observes: per-target
failures are caught inside the loop, so the call always returns
normally. -/
def _broadcast (reg : Registry) (t : Nat) (payload : List Nat)
    (sender : Option Conn) (sendFails : Conn → Bool) :
    Except String (List (Conn × List Nat × Bool)) :=
  Except.ok (broadcastLoop (encodeMsg t payload) sender sendFails reg)

/-- C5: Duplicate-username rejection.  A JOIN frame in the username
loop whose decoded name is already among the registry values draws an
ERROR frame with payload Username already taken. sent to the joining
socket only, the registry is returned unchanged, and the loop
continues in AWAITING_JOIN (the retry result). -/
theorem duplicate_username_rejected (reg : Registry) (c : Conn)
    (payload : List Nat) (hne : payload ≠ [])
    (htaken : decodeUtf8Ignore payload ∈ registryValues reg) :
    handshakeStep reg c (some (MSG_TYPE_JOIN, payload)) =
      JoinResult.retry reg
        [SendAction.direct c MSG_TYPE_ERROR
          (encodeUtf8 "Username already taken.")] := by
  simp only [handshakeStep]
  rw [if_pos ⟨trivial, hne⟩, if_pos htaken]

/-- C5 witness: with alice registered on socket 0, socket 1 sending
JOIN alice is rejected and the registry keeps only alice. -/
theorem duplicate_username_rejected_witness :
    encodeUtf8 "alice" ≠ [] ∧
    decodeUtf8Ignore (encodeUtf8 "alice") ∈ registryValues [(0, "alice")] ∧
    handshakeStep [(0, "alice")] 1 (some (MSG_TYPE_JOIN, encodeUtf8 "alice")) =
      JoinResult.retry [(0, "alice")]
        [SendAction.direct 1 MSG_TYPE_ERROR
          (encodeUtf8 "Username already taken.")] :=
  ⟨by decide, by decide,
   duplicate_username_rejected [(0, "alice")] 1 (encodeUtf8 "alice")
     (by decide) (by decide)⟩

/-- C10: JOIN payload that is non-empty as bytes but holds no
decodable UTF-8 character.  The single byte 255 passes the non-empty
check of server.py line 104, decodes to the empty string under
errors-ignore, and (no empty username being registered) the handler
registers the empty string and moves the session to ACTIVE (the
accepted result), instead of rejecting the JOIN. -/
theorem join_invalid_utf8_edge :
    ([255] : List Nat) ≠ [] ∧
    decodeUtf8Ignore [255] = "" ∧
    handshakeStep [(0, "alice")] 1 (some (MSG_TYPE_JOIN, [255])) =
      JoinResult.accepted "" [(0, "alice"), (1, "")]
        [SendAction.broadcast MSG_TYPE_JOIN
          (encodeUtf8 " joined the chat.") (some 1),
         SendAction.direct 1 MSG_TYPE_TEXT
          (encodeUtf8 "Welcome! Type /help for commands.")] := by
  refine ⟨by decide, by decide, by decide⟩

/-- C9: the /users command.  For an ACTIVE session whose TEXT frame
decodes to a slash-led text whose first token lowercases to /users,
the handler emits exactly one action: a direct TEXT frame to the
issuing socket whose payload is the online-users banner followed by
the registry values joined by comma-space in registry snapshot order.
No broadcast action is produced, so no other socket receives
anything. -/
theorem users_command_direct_only (reg : Registry) (c : Conn) (u : String)
    (payload : List Nat)
    (hslash : strStarts (decodeUtf8Ignore payload) "/" = true)
    (hverb : pyLower (pySplitFirst (decodeUtf8Ignore payload)) = "/users") :
    activeStep reg c u (some (MSG_TYPE_TEXT, payload)) =
      StepOut.handled
        [SendAction.direct c MSG_TYPE_TEXT
          (encodeUtf8 ("[Server] Online users: "
            ++ joinCommaSp (registryValues reg)))] := by
  simp only [activeStep]
  rw [if_pos trivial, if_pos hslash]
  simp only [handleCommand, hverb]
  rw [if_pos trivial]
  rw [if_neg (by decide)]

/-- C9 witness: alice on socket 0 and bob on socket 1; alice sends the
uppercase variant /USERS and receives, alone, the banner listing
alice, bob. -/
theorem users_command_direct_only_witness :
    strStarts (decodeUtf8Ignore (encodeUtf8 "/USERS")) "/" = true ∧
    pyLower (pySplitFirst (decodeUtf8Ignore (encodeUtf8 "/USERS"))) = "/users" ∧
    activeStep [(0, "alice"), (1, "bob")] 0 "alice"
        (some (MSG_TYPE_TEXT, encodeUtf8 "/USERS")) =
      StepOut.handled
        [SendAction.direct 0 MSG_TYPE_TEXT
          (encodeUtf8 ("[Server] Online users: "
            ++ joinCommaSp (registryValues [(0, "alice"), (1, "bob")])))] :=
  ⟨by decide, by decide,
   users_command_direct_only [(0, "alice"), (1, "bob")] 0 "alice"
     (encodeUtf8 "/USERS") (by decide) (by decide)⟩

/-- C3: TEXT broadcast with exclusion.  A TEXT frame whose decoded
text does not start with a slash makes the handler emit exactly one
broadcast action whose payload is the UTF-8 bytes of the username
followed by two colons, then the original payload bytes, excluding the
sender; and the broadcast target list for that exclusion contains
every registered socket other than the sender and never the sender
itself. -/
theorem text_broadcast_excludes_sender (reg : Registry) (c : Conn)
    (u : String) (payload : List Nat)
    (hslash : strStarts (decodeUtf8Ignore payload) "/" = false) :
    activeStep reg c u (some (MSG_TYPE_TEXT, payload)) =
      StepOut.handled
        [SendAction.broadcast MSG_TYPE_TEXT
          (encodeUtf8 (u ++ "::") ++ payload) (some c)] ∧
    c ∉ broadcastTargets reg (some c) ∧
    ∀ k ∈ registryKeys reg, k ≠ c → k ∈ broadcastTargets reg (some c) := by
  refine ⟨?_, ?_, ?_⟩
  · simp only [activeStep]
    rw [if_pos trivial, if_neg (by rw [hslash]; exact Bool.false_ne_true)]
  · simp [broadcastTargets, List.mem_filter]
  · intro k hk hne
    simp [broadcastTargets, List.mem_filter]
    exact ⟨hk, hne⟩

/-- C3 witness: alice on socket 0, bob on socket 1 and carol on socket
2; alice sends the text hi, the handler broadcasts alice-double-colon
prefixed payload excluding socket 0, and the target list is exactly
sockets 1 and 2. -/
theorem text_broadcast_excludes_sender_witness :
    strStarts (decodeUtf8Ignore (encodeUtf8 "hi")) "/" = false ∧
    (activeStep [(0, "alice"), (1, "bob"), (2, "carol")] 0 "alice"
        (some (MSG_TYPE_TEXT, encodeUtf8 "hi")) =
      StepOut.handled
        [SendAction.broadcast MSG_TYPE_TEXT
          (encodeUtf8 ("alice" ++ "::") ++ encodeUtf8 "hi") (some 0)] ∧
    0 ∉ broadcastTargets [(0, "alice"), (1, "bob"), (2, "carol")] (some 0) ∧
    ∀ k ∈ registryKeys [(0, "alice"), (1, "bob"), (2, "carol")], k ≠ 0 →
      k ∈ broadcastTargets [(0, "alice"), (1, "bob"), (2, "carol")] (some 0)) :=
  ⟨by decide,
   text_broadcast_excludes_sender [(0, "alice"), (1, "bob"), (2, "carol")]
     0 "alice" (encodeUtf8 "hi") (by decide)⟩

/-- C6 counterexample: when the underlying send fails, send_msg raises
ConnectionError to its caller, but _send_direct_message — the
send_direct operation used for handshake responses, command results
and per-client errors — catches it and returns normally with only a
logged warning, so no delivery error reaches its caller. -/
theorem send_direct_swallow_cex :
    send_msg false MSG_TYPE_TEXT [104, 105]
      = Except.error "Failed to send message" ∧
    _send_direct_message false MSG_TYPE_TEXT [104, 105]
      = Except.ok ["Failed to send direct message."] :=
  ⟨rfl, rfl⟩

/-- C6 amended: on a failing send, send_msg reports the delivery error
to its caller by raising ConnectionError, and _send_direct_message
catches that error, logs a warning, and returns normally for every
outcome of the underlying send — the failure is contained inside
_send_direct_message and never propagated to its caller. -/
theorem send_direct_error_contained (sendOk : Bool) (t : Nat)
    (payload : List Nat) :
    send_msg false t payload = Except.error "Failed to send message" ∧
    _send_direct_message sendOk t payload =
      Except.ok (if sendOk then [] else ["Failed to send direct message."]) := by
  cases sendOk <;> exact ⟨rfl, rfl⟩

/-- The targets attempted by the broadcast loop are exactly the
non-excluded registered sockets, in registry order, whatever the
per-target send outcomes are. -/
theorem broadcastLoop_map_fst (msg : List Nat) (sender : Option Conn)
    (sendFails : Conn → Bool) :
    ∀ reg : Registry,
      (broadcastLoop msg sender sendFails reg).map Prod.fst =
        broadcastTargets reg sender := by
  intro reg
  induction reg with
  | nil => rfl
  | cons e rest ih =>
    obtain ⟨k, v⟩ := e
    by_cases h : some k ≠ sender
    · simp only [broadcastLoop, if_pos h, List.map_cons, ih,
        broadcastTargets, registryKeys, List.filter_cons]
      rw [if_pos (by simpa using h)]
    · simp only [broadcastLoop, if_neg h, ih,
        broadcastTargets, registryKeys, List.map_cons, List.filter_cons]
      rw [if_neg (by simpa using h)]

/-- C7: Partial broadcast failure isolation.  Whatever the per-target
send outcomes, _broadcast returns normally (the ok result — per-target
errors are caught inside the loop and never surfaced to the caller),
and the loop attempts every non-excluded registered target: the list
of attempted targets equals the full non-excluded target list and
does not depend on which sends fail. -/
theorem broadcast_failure_isolated (reg : Registry) (t : Nat)
    (payload : List Nat) (sender : Option Conn) (sendFails : Conn → Bool) :
    _broadcast reg t payload sender sendFails =
      Except.ok (broadcastLoop (encodeMsg t payload) sender sendFails reg) ∧
    (broadcastLoop (encodeMsg t payload) sender sendFails reg).map Prod.fst =
      broadcastTargets reg sender :=
  ⟨rfl, broadcastLoop_map_fst _ _ _ reg⟩

/-- After popping a socket, looking it up in the registry fails. -/
theorem lookupConn_dictErase_self (c : Conn) :
    ∀ reg : Registry, lookupConn c (dictErase c reg) = none := by
  intro reg
  induction reg with
  | nil => rfl
  | cons e rest ih =>
    obtain ⟨k, v⟩ := e
    by_cases h : k = c
    · subst h
      simp only [dictErase, List.filter_cons] at ih ⊢
      rw [if_neg (by simp)]
      exact ih
    · simp only [dictErase, List.filter_cons] at ih ⊢
      rw [if_pos (by simpa using h)]
      simpa [lookupConn, h] using ih

/-- A broadcast with no excluded sender targets the whole registry. -/
theorem broadcastTargets_none (reg : Registry) :
    broadcastTargets reg none = registryKeys reg := by
  simp [broadcastTargets, List.filter_eq_self]

/-- C2 counterexample: the literal username unknown collides with the
sentinel of _remove_client.  Socket 0 can successfully JOIN with the
name unknown (first conjunct), but on teardown of a registry holding
unknown on socket 0 and bob on socket 1 the connection is removed and
no LEAVE frame at all is broadcast (second conjunct), refuting the
for-every-registered-username-with-no-exception form of the claim. -/
theorem teardown_unknown_cex :
    handshakeStep [] 0 (some (MSG_TYPE_JOIN, encodeUtf8 "unknown")) =
      JoinResult.accepted "unknown" [(0, "unknown")]
        [SendAction.broadcast MSG_TYPE_JOIN
          (encodeUtf8 "unknown joined the chat.") (some 0),
         SendAction.direct 0 MSG_TYPE_TEXT
          (encodeUtf8 "Welcome! Type /help for commands.")] ∧
    teardownStep [(0, "unknown"), (1, "bob")] 0 = ([(1, "bob")], []) :=
  ⟨by decide, by decide⟩

/-- C2 amended: for every registered connection whose username is
neither the empty string nor the literal unknown (the code's sentinel,
for which the truthiness test at server.py line 155 suppresses the
announcement), teardown removes the connection from the registry and
emits exactly one LEAVE broadcast with payload username followed by
the left-the-chat text, with no excluded sender, whose target list is
exactly the remaining registry. -/
theorem teardown_announces (reg : Registry) (c : Conn) (u : String)
    (hreg : lookupConn c reg = some u) (hne : u ≠ "") (hnu : u ≠ "unknown") :
    lookupConn c (teardownStep reg c).1 = none ∧
    (teardownStep reg c).2 =
      [SendAction.broadcast MSG_TYPE_LEAVE
        (encodeUtf8 (u ++ " left the chat.")) none] ∧
    broadcastTargets (teardownStep reg c).1 none =
      registryKeys (teardownStep reg c).1 := by
  have hrm : _remove_client reg c = (dictErase c reg, u) := by
    rw [_remove_client, hreg]
  have hstep : teardownStep reg c =
      (dictErase c reg,
       [SendAction.broadcast MSG_TYPE_LEAVE
         (encodeUtf8 (u ++ " left the chat.")) none]) := by
    rw [teardownStep, hrm]
    rw [if_pos ⟨hne, hnu⟩]
  rw [hstep]
  exact ⟨lookupConn_dictErase_self c reg, rfl, broadcastTargets_none _⟩

/-- C2 amended witness: alice on socket 0 and bob on socket 1; tearing
down socket 0 removes alice and broadcasts one LEAVE announcing alice
whose target list is exactly the remaining registry (bob). -/
theorem teardown_announces_witness :
    lookupConn 0 [(0, "alice"), (1, "bob")] = some "alice" ∧
    "alice" ≠ "" ∧ "alice" ≠ "unknown" ∧
    (lookupConn 0 (teardownStep [(0, "alice"), (1, "bob")] 0).1 = none ∧
     (teardownStep [(0, "alice"), (1, "bob")] 0).2 =
       [SendAction.broadcast MSG_TYPE_LEAVE
         (encodeUtf8 ("alice" ++ " left the chat.")) none] ∧
     broadcastTargets (teardownStep [(0, "alice"), (1, "bob")] 0).1 none =
       registryKeys (teardownStep [(0, "alice"), (1, "bob")] 0).1) :=
  ⟨by decide, by decide, by decide,
   teardown_announces [(0, "alice"), (1, "bob")] 0 "alice"
     (by decide) (by decide) (by decide)⟩

/-- A registry operation as observable at the shared dict: a JOIN
attempt (server.py lines 104-112, mutating only when the name is free)
or an unregistration (server.py lines 85-87). -/
inductive RegOp where
  | join (c : Conn) (payload : List Nat)
  | leave (c : Conn)

/-- Effect of one registry operation on the clients dict, exactly the
mutations performed by _handle_client lines 104-112 (a JOIN whose
non-empty payload decodes to a free name is inserted; a taken name or
an invalid JOIN leaves the dict unchanged) and _remove_client lines
85-87. -/
def applyOp (reg : Registry) : RegOp → Registry
  | RegOp.join c payload =>
    if payload ≠ [] then
      if decodeUtf8Ignore payload ∈ registryValues reg then reg
      else dictInsert c (decodeUtf8Ignore payload) reg
    else reg
  | RegOp.leave c => (_remove_client reg c).1

/-- The registry well-formedness invariant of the spec: sockets appear
at most once as keys, and usernames are pairwise distinct under
case-sensitive (plain string) equality. -/
def RegWF (reg : Registry) : Prop :=
  (registryKeys reg).Nodup ∧ (registryValues reg).Nodup

/-- Membership in the keys after a dict insertion. -/
theorem mem_registryKeys_dictInsert (c : Conn) (u : String) (x : Conn) :
    ∀ reg : Registry,
      x ∈ registryKeys (dictInsert c u reg) ↔ x = c ∨ x ∈ registryKeys reg := by
  intro reg
  induction reg with
  | nil => simp [dictInsert, registryKeys]
  | cons e rest ih =>
    obtain ⟨k, v⟩ := e
    by_cases h : k = c
    · subst h
      simp [dictInsert, registryKeys]
    · simp only [dictInsert, if_neg h, registryKeys, List.map_cons,
        List.mem_cons] at ih ⊢
      tauto

/-- Membership in the values after a dict insertion. -/
theorem mem_registryValues_dictInsert (c : Conn) (u : String) (x : String) :
    ∀ reg : Registry,
      x ∈ registryValues (dictInsert c u reg) → x = u ∨ x ∈ registryValues reg := by
  intro reg
  induction reg with
  | nil => simp [dictInsert, registryValues]
  | cons e rest ih =>
    obtain ⟨k, v⟩ := e
    by_cases h : k = c
    · subst h
      simp [dictInsert, registryValues]
      tauto
    · simp only [dictInsert, if_neg h, registryValues, List.map_cons,
        List.mem_cons] at ih ⊢
      tauto

/-- Inserting a username that is not yet among the values keeps the
registry well-formed (Python dict assignment replaces the value when
the key is present and appends otherwise). -/
theorem RegWF_dictInsert (c : Conn) (u : String) :
    ∀ reg : Registry, RegWF reg → u ∉ registryValues reg →
      RegWF (dictInsert c u reg) := by
  intro reg
  induction reg with
  | nil =>
    intro _ _
    constructor <;> simp [dictInsert, registryKeys, registryValues]
  | cons e rest ih =>
    obtain ⟨k, v⟩ := e
    intro hwf hu
    obtain ⟨hk, hv⟩ := hwf
    simp only [registryKeys, List.map_cons, List.nodup_cons] at hk
    simp only [registryValues, List.map_cons, List.nodup_cons] at hv
    simp only [registryValues, List.map_cons, List.mem_cons] at hu
    push_neg at hu
    by_cases h : k = c
    · subst h
      have hins : dictInsert k u ((k, v) :: rest) = (k, u) :: rest := by
        simp [dictInsert]
      rw [hins]
      constructor
      · simp only [registryKeys, List.map_cons, List.nodup_cons]
        exact hk
      · simp only [registryValues, List.map_cons, List.nodup_cons]
        exact ⟨hu.2, hv.2⟩
    · have ihh := ih ⟨hk.2, hv.2⟩ hu.2
      constructor
      · simp only [dictInsert, if_neg h, registryKeys, List.map_cons,
          List.nodup_cons]
        refine ⟨?_, ihh.1⟩
        intro hmem
        rcases (mem_registryKeys_dictInsert c u k rest).mp hmem with rfl | hh
        · exact h rfl
        · exact hk.1 hh
      · simp only [dictInsert, if_neg h, registryValues, List.map_cons,
          List.nodup_cons]
        refine ⟨?_, ihh.2⟩
        intro hmem
        rcases mem_registryValues_dictInsert c u v rest hmem with rfl | hh
        · exact hu.1 rfl
        · exact hv.1 hh

/-- Removing entries keeps the registry well-formed. -/
theorem RegWF_dictErase (reg : Registry) (c : Conn) (h : RegWF reg) :
    RegWF (dictErase c reg) := by
  have hsub : List.Sublist (dictErase c reg) reg := List.filter_sublist reg
  exact ⟨h.1.sublist (hsub.map Prod.fst), h.2.sublist (hsub.map Prod.snd)⟩

/-- One registry operation preserves well-formedness. -/
theorem RegWF_applyOp (reg : Registry) (op : RegOp) (h : RegWF reg) :
    RegWF (applyOp reg op) := by
  cases op with
  | join c payload =>
    by_cases hp : payload ≠ []
    · by_cases ht : decodeUtf8Ignore payload ∈ registryValues reg
      · simpa [applyOp, hp, ht] using h
      · simpa [applyOp, hp, ht] using RegWF_dictInsert c _ reg h ht
    · simpa [applyOp, hp] using h
  | leave c =>
    simp only [applyOp, _remove_client]
    cases hl : lookupConn c reg with
    | none => simpa using h
    | some u => simpa using RegWF_dictErase reg c h

/-- C4: Registry uniqueness invariant.  Every registry state reachable
from the empty dict by any sequence of JOIN registrations and
unregistrations has pairwise distinct usernames under case-sensitive
comparison and each socket at most once as a key. -/
theorem registry_invariant (ops : List RegOp) :
    RegWF (ops.foldl applyOp []) := by
  have hgen : ∀ reg : Registry, RegWF reg → RegWF (ops.foldl applyOp reg) := by
    induction ops with
    | nil => exact fun _ h => h
    | cons op rest ih =>
      intro reg h
      exact ih (applyOp reg op) (RegWF_applyOp reg op h)
  exact hgen [] ⟨List.nodup_nil, List.nodup_nil⟩

end PyChat
